import Mathlib

/-!
Verification development for the network virtual-connection abstraction
(`iocore/net/I_NetVConnection.h`): the `NetVCOptions` configuration value,
the `NetVConnection` data fields with their constructor, and the documented
I/O, timeout, shutdown and close contract of the connection, modelled as an
explicit state machine with an observable event-delivery trace.
-/

namespace NetVC

/-! ## Connection options (`NetVCOptions`, from the source) -/

/-- Values for valid IP protocols (`NetVCOptions::ip_protocol_t`). -/
inductive ip_protocol_t
  | USE_TCP
  | USE_UDP
deriving DecidableEq

/-- The set of ways in which the local address should be bound
(`NetVCOptions::addr_bind_style`). -/
inductive addr_bind_style
  | ANY_ADDR
  | INTF_ADDR
  | FOREIGN_ADDR
deriving DecidableEq

/-- The set of ways in which the local port should be bound
(`NetVCOptions::port_bind_style`). -/
inductive port_bind_style
  | ANY_PORT
  | FIXED_PORT
deriving DecidableEq

/-- Client options for a `NetVConnection` (`struct NetVCOptions`).
`local_port` is a `uint16`, `local_addr` a `uint32`; both are plain machine
words holding the values as given, `etype` abstracts the `EventType` tag. -/
structure NetVCOptions where
  ip_proto : ip_protocol_t
  local_port : Nat
  port_binding : port_bind_style
  local_addr : Nat
  addr_binding : addr_bind_style
  f_blocking : Bool
  f_blocking_connect : Bool
  socks_support : Nat
  socks_version : Nat
  socket_recv_bufsize : Int
  socket_send_bufsize : Int
  sockopt_flags : Nat
  etype : Nat
deriving DecidableEq

/-- Value for TCP no delay for `sockopt_flags`. -/
def NetVCOptions.SOCK_OPT_NO_DELAY : Nat := 1

/-- Value for keep alive for `sockopt_flags`. -/
def NetVCOptions.SOCK_OPT_KEEP_ALIVE : Nat := 2

/-- Modelled from the spec: the local-address binding actually consumed by
the (absent) transport layer.  The source doc comment states that a binding
style of `ANY_ADDR` causes the value in `local_addr` to be ignored, while
`INTF_ADDR` and `FOREIGN_ADDR` bind to the address in `local_addr`. -/
inductive AddrBindChoice
  | anyAddr
  | intfAddr (a : Nat)
  | foreignAddr (a : Nat)
deriving DecidableEq

/-- Modelled from the spec: the local-port binding actually consumed by the
(absent) transport layer; `ANY_PORT` ignores `local_port`, `FIXED_PORT`
binds to it. -/
inductive PortBindChoice
  | anyPort
  | fixedPort (p : Nat)
deriving DecidableEq

/-- Modelled from the spec: `effectiveAddrBinding` resolves the address
binding request of an option block, ignoring `local_addr` exactly when the
binding style is `ANY_ADDR` (the transport implementation that performs the
bind is not part of the source surface). -/
def NetVCOptions.effectiveAddrBinding (o : NetVCOptions) : AddrBindChoice :=
  match o.addr_binding with
  | .ANY_ADDR => .anyAddr
  | .INTF_ADDR => .intfAddr o.local_addr
  | .FOREIGN_ADDR => .foreignAddr o.local_addr

/-- Modelled from the spec: `effectivePortBinding` resolves the port binding
request of an option block, ignoring `local_port` exactly when the binding
style is `ANY_PORT`. -/
def NetVCOptions.effectivePortBinding (o : NetVCOptions) : PortBindChoice :=
  match o.port_binding with
  | .ANY_PORT => .anyPort
  | .FIXED_PORT => .fixedPort o.local_port

/-- Modelled from the spec: the full set of connection parameters a transport
implementation consumes when establishing the connection; everything that can
influence behaviour downstream of option resolution. -/
structure EffectiveConnParams where
  proto : ip_protocol_t
  addrChoice : AddrBindChoice
  portChoice : PortBindChoice
  f_blocking : Bool
  f_blocking_connect : Bool
  socks_support : Nat
  socks_version : Nat
  recv_bufsize : Int
  send_bufsize : Int
  sockopt_flags : Nat
  etype : Nat
deriving DecidableEq

/-- Modelled from the spec: resolution of an option block into the parameters
the transport consumes. -/
def NetVCOptions.effectiveParams (o : NetVCOptions) : EffectiveConnParams :=
  { proto := o.ip_proto
    addrChoice := o.effectiveAddrBinding
    portChoice := o.effectivePortBinding
    f_blocking := o.f_blocking
    f_blocking_connect := o.f_blocking_connect
    socks_support := o.socks_support
    socks_version := o.socks_version
    recv_bufsize := o.socket_recv_bufsize
    send_bufsize := o.socket_send_bufsize
    sockopt_flags := o.sockopt_flags
    etype := o.etype }

/-! ## `NetVConnection` data fields and constructor (from the source) -/

/-- A `struct sockaddr_in` reduced to its payload fields; zero-filled means
every field is `0` (the effect of the constructor's `memset`). -/
structure sockaddr_in where
  sin_family : Nat
  sin_port : Nat
  sin_addr : Nat
deriving DecidableEq

/-- The zero-filled `sockaddr_in` produced by `memset(&a, 0, sizeof(a))`. -/
def sockaddr_in.zero : sockaddr_in :=
  { sin_family := 0, sin_port := 0, sin_addr := 0 }

/-- The concrete data members of `NetVConnection`: `options`, `attributes`,
the `EThread *thread` pointer (`none` models `NULL`), the two cached
addresses, the two resolved flags (C++ `int`), and `is_internal_request`. -/
structure NetVConnectionData where
  options : NetVCOptions
  attributes : Nat
  thread : Option Nat
  local_addr : sockaddr_in
  remote_addr : sockaddr_in
  got_local_addr : Int
  got_remote_addr : Int
  is_internal_request : Bool
deriving DecidableEq

/-- The inline `NetVConnection::NetVConnection()` constructor: `attributes`
0, `thread` NULL, `got_local_addr` 0, `got_remote_addr` 0,
`is_internal_request` false, both address structs zero-filled.  The embedded
`options` member is default-constructed through `NetVCOptions::reset()`,
whose body is outside the source surface, so the option block is taken as a
parameter. -/
def NetVConnectionData.construct (opts : NetVCOptions) : NetVConnectionData :=
  { options := opts
    attributes := 0
    thread := none
    local_addr := sockaddr_in.zero
    remote_addr := sockaddr_in.zero
    got_local_addr := 0
    got_remote_addr := 0
    is_internal_request := false }

/-- `NetVConnection::get_is_internal_request()` (source): returns the flag. -/
def NetVConnectionData.get_is_internal_request (vc : NetVConnectionData) : Bool :=
  vc.is_internal_request

/-- `NetVConnection::set_is_internal_request(bool val)` (source): stores the
argument in `is_internal_request`, touching nothing else. -/
def NetVConnectionData.set_is_internal_request (vc : NetVConnectionData) (val : Bool) :
    NetVConnectionData :=
  { vc with is_internal_request := val }

/-- A call `set_is_internal_request()` with the argument omitted: the source
declares the default argument as `bool val = false`. -/
def NetVConnectionData.set_is_internal_request_noarg (vc : NetVConnectionData) :
    NetVConnectionData :=
  vc.set_is_internal_request false

/-- Modelled from the spec: `get_local_addr()` (implementation outside the
source surface) resolves the local address lazily, caching after first
resolution: when `got_local_addr` is still 0 it invokes the transport's
`set_local_addr()` (abstracted as the `resolved` argument), stores the
result and marks the cache; otherwise it returns the cached struct. -/
def NetVConnectionData.get_local_addr (vc : NetVConnectionData)
    (resolved : sockaddr_in) : NetVConnectionData × sockaddr_in :=
  if vc.got_local_addr = 0 then
    ({ vc with local_addr := resolved, got_local_addr := 1 }, resolved)
  else
    (vc, vc.local_addr)

/-- Modelled from the spec: `get_remote_addr()`, symmetric to
`get_local_addr` for the remote address cache. -/
def NetVConnectionData.get_remote_addr (vc : NetVConnectionData)
    (resolved : sockaddr_in) : NetVConnectionData × sockaddr_in :=
  if vc.got_remote_addr = 0 then
    ({ vc with remote_addr := resolved, got_remote_addr := 1 }, resolved)
  else
    (vc, vc.remote_addr)

/-! ## The documented I/O, timeout, shutdown and close contract

The implementation behind the pure-virtual interface is outside the source
surface; the machine below is modelled from the spec and from the contract
spelled out in the source's doc comments (callback tables of `do_io_read` /
`do_io_write`, the `do_io_shutdown` and `do_io_close` paragraphs, and the
"Timeout symantics" section of `set_active_timeout`). -/

/-- The events delivered to a continuation (`VC_EVENT_*`). -/
inductive VCEvent
  | READ_READY
  | READ_COMPLETE
  | EOS
  | ERROR
  | WRITE_READY
  | WRITE_COMPLETE
  | ACTIVE_TIMEOUT
  | INACTIVITY_TIMEOUT
deriving DecidableEq

/-- Which side of the connection a delivery is for. -/
inductive SideTag
  | readSide
  | writeSide
deriving DecidableEq

/-- The value a timeout handler returns: `EVENT_DONE` means fully handled
(no further propagation of this expiry), anything else is `EVENT_CONT`. -/
inductive EventResult
  | EVENT_DONE
  | EVENT_CONT
deriving DecidableEq

/-- `ShutdownHowTo_t`, the argument of `do_io_shutdown`. -/
inductive ShutdownHowTo_t
  | IO_SHUTDOWN_READ
  | IO_SHUTDOWN_WRITE
  | IO_SHUTDOWN_READWRITE
deriving DecidableEq

/-- Modelled from the spec: an operation handle (a `VIO`): identity of the
handle object (`vioId` standing for its address), the continuation to notify
(`sink` standing for the `Continuation *`), the requested byte count
(`none` models the unbounded `INT_MAX` convention), and the bytes completed
so far (`ndone`). -/
structure OpHandle where
  vioId : Nat
  sink : Nat
  nbytes : Option Nat
  ndone : Nat
deriving DecidableEq

/-- Modelled from the spec: one observable callback
`sink->handleEvent(ev, vio)`: the side it belongs to, the continuation
notified, the identity of the handle passed, the event code, the bytes this
progress/completion event reports (0 for non-progress events), and the
handle's completed-byte count at the moment of delivery. -/
structure Delivery where
  side : SideTag
  sink : Nat
  vioId : Nat
  ev : VCEvent
  bytes : Nat
  ndone : Nat
deriving DecidableEq

/-- Modelled from the spec: the connection state the contract constrains:
at most one read and one write handle, the two shutdown flags, the closed
flag, the two armed timeout durations (in nanoseconds, `none` when not
armed), and a counter allocating fresh handle identities. -/
structure VCState where
  readOp : Option OpHandle
  writeOp : Option OpHandle
  readShut : Bool
  writeShut : Bool
  closed : Bool
  activeTimeout : Option Nat
  inactivityTimeout : Option Nat
  nextVioId : Nat
deriving DecidableEq

/-- A freshly created connection: no operations, nothing shut down, not
closed, no timers armed. -/
def VCState.init : VCState :=
  { readOp := none
    writeOp := none
    readShut := false
    writeShut := false
    closed := false
    activeTimeout := none
    inactivityTimeout := none
    nextVioId := 0 }

/-- Modelled from the spec: the stimuli the state machine reacts to: the
state-machine-facing calls (`do_io_*`, timeout setters/cancellers) and the
transport-side occurrences (bytes arriving for the read handle, bytes
drained from the write handle, peer end-of-stream, expiry of an armed
timer — carrying the read-side handler's return value for that expiry). -/
inductive Input
  | doIORead (sink : Nat) (nbytes : Option Nat)
  | doIOWrite (sink : Nat) (nbytes : Option Nat)
  | doIOShutdown (howto : ShutdownHowTo_t)
  | doIOClose (lerrno : Int)
  | setActiveTimeout (d : Nat)
  | setInactivityTimeout (d : Nat)
  | cancelActiveTimeout
  | cancelInactivityTimeout
  | arriveReadBytes (n : Nat)
  | drainWriteBytes (n : Nat)
  | peerEOS
  | expireActive (r : EventResult)
  | expireInactivity (r : EventResult)
deriving DecidableEq

/-- The timeout delivery built for one side's handle. -/
def timeoutDelivery (tag : SideTag) (ev : VCEvent) (h : OpHandle) : Delivery :=
  { side := tag, sink := h.sink, vioId := h.vioId, ev := ev, bytes := 0, ndone := h.ndone }

/-- Modelled from the spec: the firing policy on expiry of an armed timer
(the "Timeout symantics" paragraph of `set_active_timeout`): the read side
is signaled first, provided a read has been initiated and the read side is
not shut down; if its handler returns `EVENT_DONE` no timeout is sent to
the write side; otherwise the write side is signaled as well when its state
machine is different by pointer comparison, a write has been initiated and
the write side is not shut down.  When the read side cannot be signaled the
processor attempts the write side (initiated and not shut down). -/
def timeoutDeliveries (ev : VCEvent) (ro wo : Option OpHandle)
    (rs ws : Bool) (r : EventResult) : List Delivery :=
  match ro with
  | some hr =>
    if rs then
      match wo with
      | some hw => if ws then [] else [timeoutDelivery .writeSide ev hw]
      | none => []
    else
      if r = .EVENT_DONE then [timeoutDelivery .readSide ev hr]
      else
        match wo with
        | some hw =>
          if ws then [timeoutDelivery .readSide ev hr]
          else if hw.sink = hr.sink then [timeoutDelivery .readSide ev hr]
          else [timeoutDelivery .readSide ev hr, timeoutDelivery .writeSide ev hw]
        | none => [timeoutDelivery .readSide ev hr]
  | none =>
    match wo with
    | some hw => if ws then [] else [timeoutDelivery .writeSide ev hw]
    | none => []

/-- The outcome of one stimulus: the successor state, the list of callbacks
delivered (in order), and whether the call was rejected as a caller error. -/
structure StepResult where
  st : VCState
  outs : List Delivery
  err : Bool
deriving DecidableEq

/-- Modelled from the spec: the transition function of the connection
contract.  `do_io_read`/`do_io_write` on a shut-down (or closed) direction
are caller errors; shutdown retires the direction's handle silently; close
is idempotent, retires both handles and disarms both timers; a timeout set
while neither side has an active operation is ignored; expiry of an armed
timer delivers per `timeoutDeliveries` and disarms that timer until it is
set again; arriving/drained bytes advance the bounded handle, delivering
`READ_READY`/`WRITE_READY` on progress and `READ_COMPLETE`/`WRITE_COMPLETE`
once `nbytes` is reached, which retires the handle; peer end-of-stream
delivers `EOS` to an active read handle and retires it. -/
def step (s : VCState) : Input → StepResult
  | .doIORead sink n =>
    if s.readShut || s.closed then ⟨s, [], true⟩
    else
      ⟨{ s with readOp := some ⟨s.nextVioId, sink, n, 0⟩, nextVioId := s.nextVioId + 1 },
        [], false⟩
  | .doIOWrite sink n =>
    if s.writeShut || s.closed then ⟨s, [], true⟩
    else
      ⟨{ s with writeOp := some ⟨s.nextVioId, sink, n, 0⟩, nextVioId := s.nextVioId + 1 },
        [], false⟩
  | .doIOShutdown howto =>
    match howto with
    | .IO_SHUTDOWN_READ => ⟨{ s with readShut := true, readOp := none }, [], false⟩
    | .IO_SHUTDOWN_WRITE => ⟨{ s with writeShut := true, writeOp := none }, [], false⟩
    | .IO_SHUTDOWN_READWRITE =>
      ⟨{ s with readShut := true, readOp := none, writeShut := true, writeOp := none },
        [], false⟩
  | .doIOClose _ =>
    if s.closed then ⟨s, [], false⟩
    else
      ⟨{ s with
          closed := true
          readOp := none
          writeOp := none
          activeTimeout := none
          inactivityTimeout := none }, [], false⟩
  | .setActiveTimeout d =>
    if s.readOp.isSome || s.writeOp.isSome then
      ⟨{ s with activeTimeout := some d }, [], false⟩
    else ⟨s, [], false⟩
  | .setInactivityTimeout d =>
    if s.readOp.isSome || s.writeOp.isSome then
      ⟨{ s with inactivityTimeout := some d }, [], false⟩
    else ⟨s, [], false⟩
  | .cancelActiveTimeout => ⟨{ s with activeTimeout := none }, [], false⟩
  | .cancelInactivityTimeout => ⟨{ s with inactivityTimeout := none }, [], false⟩
  | .arriveReadBytes n =>
    match s.readOp with
    | none => ⟨s, [], false⟩
    | some h =>
      match h.nbytes with
      | some N =>
        let nd := min (h.ndone + n) N
        if N ≤ nd then
          ⟨{ s with readOp := none },
            [⟨.readSide, h.sink, h.vioId, .READ_COMPLETE, nd - h.ndone, nd⟩], false⟩
        else if h.ndone < nd then
          ⟨{ s with readOp := some { h with ndone := nd } },
            [⟨.readSide, h.sink, h.vioId, .READ_READY, nd - h.ndone, nd⟩], false⟩
        else ⟨s, [], false⟩
      | none =>
        if 0 < n then
          ⟨{ s with readOp := some { h with ndone := h.ndone + n } },
            [⟨.readSide, h.sink, h.vioId, .READ_READY, n, h.ndone + n⟩], false⟩
        else ⟨s, [], false⟩
  | .drainWriteBytes n =>
    match s.writeOp with
    | none => ⟨s, [], false⟩
    | some h =>
      match h.nbytes with
      | some N =>
        let nd := min (h.ndone + n) N
        if N ≤ nd then
          ⟨{ s with writeOp := none },
            [⟨.writeSide, h.sink, h.vioId, .WRITE_COMPLETE, nd - h.ndone, nd⟩], false⟩
        else if h.ndone < nd then
          ⟨{ s with writeOp := some { h with ndone := nd } },
            [⟨.writeSide, h.sink, h.vioId, .WRITE_READY, nd - h.ndone, nd⟩], false⟩
        else ⟨s, [], false⟩
      | none =>
        if 0 < n then
          ⟨{ s with writeOp := some { h with ndone := h.ndone + n } },
            [⟨.writeSide, h.sink, h.vioId, .WRITE_READY, n, h.ndone + n⟩], false⟩
        else ⟨s, [], false⟩
  | .peerEOS =>
    match s.readOp with
    | none => ⟨s, [], false⟩
    | some h =>
      ⟨{ s with readOp := none },
        [⟨.readSide, h.sink, h.vioId, .EOS, 0, h.ndone⟩], false⟩
  | .expireActive r =>
    match s.activeTimeout with
    | none => ⟨s, [], false⟩
    | some _ =>
      ⟨{ s with activeTimeout := none },
        timeoutDeliveries .ACTIVE_TIMEOUT s.readOp s.writeOp s.readShut s.writeShut r,
        false⟩
  | .expireInactivity r =>
    match s.inactivityTimeout with
    | none => ⟨s, [], false⟩
    | some _ =>
      ⟨{ s with inactivityTimeout := none },
        timeoutDeliveries .INACTIVITY_TIMEOUT s.readOp s.writeOp s.readShut s.writeShut r,
        false⟩

/-- Running a list of stimuli, accumulating the delivered callbacks. -/
def run (s : VCState) : List Input → VCState × List Delivery
  | [] => (s, [])
  | i :: rest =>
    let r := step s i
    let p := run r.st rest
    (p.1, r.outs ++ p.2)

/-- Well-formedness of handle identities: every live handle was allocated
below the fresh-identity counter. -/
def wf (s : VCState) : Bool :=
  s.readOp.all (fun h => h.vioId < s.nextVioId) &&
    s.writeOp.all (fun h => h.vioId < s.nextVioId)

/-- Discriminator: is this stimulus a `set_active_timeout` call? -/
def Input.isSetActiveTimeout : Input → Bool
  | .setActiveTimeout _ => true
  | _ => false

/-- Discriminator: is this stimulus a `set_inactivity_timeout` call? -/
def Input.isSetInactivityTimeout : Input → Bool
  | .setInactivityTimeout _ => true
  | _ => false

/-- Discriminator: is this stimulus a `do_io_read` call? -/
def Input.isDoIORead : Input → Bool
  | .doIORead _ _ => true
  | _ => false

/-- Discriminator: is this stimulus a `do_io_write` call? -/
def Input.isDoIOWrite : Input → Bool
  | .doIOWrite _ _ => true
  | _ => false

/-- A sample fully defaulted option block: TCP, any-port, any-address,
non-blocking, no SOCKS, no tuning flags. -/
def sampleOptions : NetVCOptions :=
  { ip_proto := .USE_TCP
    local_port := 0
    port_binding := .ANY_PORT
    local_addr := 0
    addr_binding := .ANY_ADDR
    f_blocking := false
    f_blocking_connect := false
    socks_support := 0
    socks_version := 0
    socket_recv_bufsize := 0
    socket_send_bufsize := 0
    sockopt_flags := 0
    etype := 0 }

/-! ## Helper lemmas about timeout deliveries -/

/-- Every delivery produced by the timeout firing policy is the timeout
delivery of one of the two current handles, tagged with its side. -/
lemma timeoutDeliveries_src (ev : VCEvent) (ro wo : Option OpHandle)
    (rs ws : Bool) (r : EventResult) :
    ∀ d ∈ timeoutDeliveries ev ro wo rs ws r,
      (∃ h, ro = some h ∧ d = timeoutDelivery .readSide ev h) ∨
        (∃ h, wo = some h ∧ d = timeoutDelivery .writeSide ev h) := by
  cases ro <;> cases wo <;> cases rs <;> cases ws <;> cases r <;>
    simp [timeoutDeliveries] <;>
    split_ifs <;> simp

/-- With no read handle, the firing policy signals only the write side. -/
lemma timeoutDeliveries_none_read (ev : VCEvent) (wo : Option OpHandle)
    (rs ws : Bool) (r : EventResult) :
    ∀ d ∈ timeoutDeliveries ev none wo rs ws r, d.side = .writeSide := by
  intro d hd
  rcases timeoutDeliveries_src ev none wo rs ws r d hd with ⟨h, hh, _⟩ | ⟨h, _, rfl⟩
  · exact absurd hh (by simp)
  · rfl

/-- Every delivery produced by the firing policy carries the expiring
timer's event code. -/
lemma timeoutDeliveries_ev (ev : VCEvent) (ro wo : Option OpHandle)
    (rs ws : Bool) (r : EventResult) :
    ∀ d ∈ timeoutDeliveries ev ro wo rs ws r, d.ev = ev := by
  intro d hd
  rcases timeoutDeliveries_src ev ro wo rs ws r d hd with ⟨h, _, rfl⟩ | ⟨h, _, rfl⟩ <;> rfl

end NetVC

namespace NetVC

/-! ## The claims -/

/-- After a read-side shutdown (flag set, handle retired), every further
stimulus keeps the read side shut, keeps it handle-free, and delivers no
read-side callback. -/
lemma readShut_step (s : VCState) (i : Input) (h1 : s.readShut = true)
    (h2 : s.readOp = none) :
    (step s i).st.readShut = true ∧ (step s i).st.readOp = none ∧
      ∀ d ∈ (step s i).outs, d.side ≠ .readSide := by
  cases i with
  | doIOShutdown howto => cases howto <;> simp [step, h1, h2]
  | expireActive r =>
    cases ha : s.activeTimeout with
    | none => simp [step, ha, h1, h2]
    | some t =>
      refine ⟨by simp [step, ha, h1], by simp [step, ha, h2], ?_⟩
      intro d hd
      simp only [step, ha] at hd
      rw [h2] at hd
      simp [timeoutDeliveries_none_read _ _ _ _ _ d hd]
  | expireInactivity r =>
    cases ha : s.inactivityTimeout with
    | none => simp [step, ha, h1, h2]
    | some t =>
      refine ⟨by simp [step, ha, h1], by simp [step, ha, h2], ?_⟩
      intro d hd
      simp only [step, ha] at hd
      rw [h2] at hd
      simp [timeoutDeliveries_none_read _ _ _ _ _ d hd]
  | _ =>
    simp only [step] <;> (repeat' split) <;> simp_all

/-- Shutdown persistence over a whole stimulus sequence: the read side stays
shut and handle-free, and not a single read-side callback is delivered. -/
lemma readShut_run (inputs : List Input) :
    ∀ s : VCState, s.readShut = true → s.readOp = none →
      (run s inputs).1.readShut = true ∧ (run s inputs).1.readOp = none ∧
        ∀ d ∈ (run s inputs).2, d.side ≠ .readSide := by
  induction inputs with
  | nil => intro s h1 h2; simp [run, h1, h2]
  | cons i rest ih =>
    intro s h1 h2
    obtain ⟨g1, g2, g3⟩ := readShut_step s i h1 h2
    obtain ⟨r1, r2, r3⟩ := ih (step s i).st g1 g2
    refine ⟨by simpa [run] using r1, by simpa [run] using r2, ?_⟩
    intro d hd
    simp only [run, List.mem_append] at hd
    rcases hd with hd | hd
    · exact g3 d hd
    · exact r3 d hd

/-- Mirror of `readShut_step` for the write side. -/
lemma writeShut_step (s : VCState) (i : Input) (h1 : s.writeShut = true)
    (h2 : s.writeOp = none) :
    (step s i).st.writeShut = true ∧ (step s i).st.writeOp = none ∧
      ∀ d ∈ (step s i).outs, d.side ≠ .writeSide := by
  cases i with
  | doIOShutdown howto => cases howto <;> simp [step, h1, h2]
  | expireActive r =>
    cases ha : s.activeTimeout with
    | none => simp [step, ha, h1, h2]
    | some t =>
      refine ⟨by simp [step, ha, h1], by simp [step, ha, h2], ?_⟩
      intro d hd
      simp only [step, ha] at hd
      rcases timeoutDeliveries_src _ _ _ _ _ _ d hd with ⟨h, _, rfl⟩ | ⟨h, hh, _⟩
      · simp [timeoutDelivery]
      · rw [h2] at hh; exact absurd hh (by simp)
  | expireInactivity r =>
    cases ha : s.inactivityTimeout with
    | none => simp [step, ha, h1, h2]
    | some t =>
      refine ⟨by simp [step, ha, h1], by simp [step, ha, h2], ?_⟩
      intro d hd
      simp only [step, ha] at hd
      rcases timeoutDeliveries_src _ _ _ _ _ _ d hd with ⟨h, _, rfl⟩ | ⟨h, hh, _⟩
      · simp [timeoutDelivery]
      · rw [h2] at hh; exact absurd hh (by simp)
  | _ =>
    simp only [step] <;> (repeat' split) <;> simp_all

/-- Mirror of `readShut_run` for the write side. -/
lemma writeShut_run (inputs : List Input) :
    ∀ s : VCState, s.writeShut = true → s.writeOp = none →
      (run s inputs).1.writeShut = true ∧ (run s inputs).1.writeOp = none ∧
        ∀ d ∈ (run s inputs).2, d.side ≠ .writeSide := by
  induction inputs with
  | nil => intro s h1 h2; simp [run, h1, h2]
  | cons i rest ih =>
    intro s h1 h2
    obtain ⟨g1, g2, g3⟩ := writeShut_step s i h1 h2
    obtain ⟨r1, r2, r3⟩ := ih (step s i).st g1 g2
    refine ⟨by simpa [run] using r1, by simpa [run] using r2, ?_⟩
    intro d hd
    simp only [run, List.mem_append] at hd
    rcases hd with hd | hd
    · exact g3 d hd
    · exact r3 d hd

/-- C2: once a direction is shut down by `do_io_shutdown`, a further
`do_io_read` (resp. `do_io_write`) on that direction is rejected as a caller
error leaving the state untouched, and no later stimulus — timer expiry with
a pending armed timer, buffered data arriving for an in-flight read, peer
events, anything — ever delivers an event for that direction again. -/
theorem C2_shutdown_stops_direction (s : VCState) (k : Nat) (n : Option Nat)
    (inputs : List Input) :
    ((step (step s (.doIOShutdown .IO_SHUTDOWN_READ)).st (.doIORead k n)).err = true ∧
      (step (step s (.doIOShutdown .IO_SHUTDOWN_READ)).st (.doIORead k n)).st =
        (step s (.doIOShutdown .IO_SHUTDOWN_READ)).st ∧
      ∀ d ∈ (run (step s (.doIOShutdown .IO_SHUTDOWN_READ)).st inputs).2,
        d.side ≠ .readSide) ∧
    ((step (step s (.doIOShutdown .IO_SHUTDOWN_WRITE)).st (.doIOWrite k n)).err = true ∧
      (step (step s (.doIOShutdown .IO_SHUTDOWN_WRITE)).st (.doIOWrite k n)).st =
        (step s (.doIOShutdown .IO_SHUTDOWN_WRITE)).st ∧
      ∀ d ∈ (run (step s (.doIOShutdown .IO_SHUTDOWN_WRITE)).st inputs).2,
        d.side ≠ .writeSide) := by
  refine ⟨⟨?_, ?_, ?_⟩, ⟨?_, ?_, ?_⟩⟩
  · simp [step]
  · simp [step]
  · exact (readShut_run inputs (step s (.doIOShutdown .IO_SHUTDOWN_READ)).st
      (by simp [step]) (by simp [step])).2.2
  · simp [step]
  · simp [step]
  · exact (writeShut_run inputs (step s (.doIOShutdown .IO_SHUTDOWN_WRITE)).st
      (by simp [step]) (by simp [step])).2.2

/-- Witness for C2: a fresh connection with a bounded read in flight and an
armed inactivity timer; after the read-side shutdown a re-issued read is
rejected, and a subsequent timer expiry plus arriving buffered bytes deliver
nothing to the read side (the run's delivery trace is empty). -/
theorem C2_shutdown_stops_direction_witness :
    (step (step ((run VCState.init
          [.doIORead 7 (some 10), .setInactivityTimeout 50]).1)
        (.doIOShutdown .IO_SHUTDOWN_READ)).st (.doIORead 7 (some 10))).err = true :=
  (C2_shutdown_stops_direction
    ((run VCState.init [.doIORead 7 (some 10), .setInactivityTimeout 50]).1)
    7 (some 10) [.expireInactivity .EVENT_CONT, .arriveReadBytes 4]).1.1

/-- With the active timer disarmed, any stimulus other than
`set_active_timeout` keeps it disarmed and delivers no `ACTIVE_TIMEOUT`. -/
lemma activeNone_step (s : VCState) (i : Input)
    (h : s.activeTimeout = none) (hi : i.isSetActiveTimeout = false) :
    (step s i).st.activeTimeout = none ∧
      ∀ d ∈ (step s i).outs, d.ev ≠ .ACTIVE_TIMEOUT := by
  cases i with
  | setActiveTimeout d => simp [Input.isSetActiveTimeout] at hi
  | doIOShutdown howto => cases howto <;> simp [step, h]
  | expireInactivity r =>
    cases ha : s.inactivityTimeout with
    | none => simp [step, ha, h]
    | some t =>
      refine ⟨by simp [step, ha, h], ?_⟩
      intro d hd
      simp only [step, ha] at hd
      simp [timeoutDeliveries_ev _ _ _ _ _ _ d hd]
  | _ =>
    simp only [step] <;> (repeat' split) <;> simp_all

/-- Mirror of `activeNone_step` for the inactivity timer. -/
lemma inactivityNone_step (s : VCState) (i : Input)
    (h : s.inactivityTimeout = none) (hi : i.isSetInactivityTimeout = false) :
    (step s i).st.inactivityTimeout = none ∧
      ∀ d ∈ (step s i).outs, d.ev ≠ .INACTIVITY_TIMEOUT := by
  cases i with
  | setInactivityTimeout d => simp [Input.isSetInactivityTimeout] at hi
  | doIOShutdown howto => cases howto <;> simp [step, h]
  | expireActive r =>
    cases ha : s.activeTimeout with
    | none => simp [step, ha, h]
    | some t =>
      refine ⟨by simp [step, ha, h], ?_⟩
      intro d hd
      simp only [step, ha] at hd
      simp [timeoutDeliveries_ev _ _ _ _ _ _ d hd]
  | _ =>
    simp only [step] <;> (repeat' split) <;> simp_all

/-- Disarmed-active-timer persistence over a stimulus sequence free of
`set_active_timeout` calls: no `ACTIVE_TIMEOUT` is ever delivered. -/
lemma activeNone_run (inputs : List Input) :
    ∀ s : VCState, s.activeTimeout = none →
      (∀ i ∈ inputs, i.isSetActiveTimeout = false) →
      (run s inputs).1.activeTimeout = none ∧
        ∀ d ∈ (run s inputs).2, d.ev ≠ .ACTIVE_TIMEOUT := by
  induction inputs with
  | nil => intro s h _; simp [run, h]
  | cons i rest ih =>
    intro s h hset
    obtain ⟨g1, g2⟩ := activeNone_step s i h (hset i (by simp))
    obtain ⟨r1, r2⟩ := ih (step s i).st g1 (fun j hj => hset j (by simp [hj]))
    refine ⟨by simpa [run] using r1, ?_⟩
    intro d hd
    simp only [run, List.mem_append] at hd
    rcases hd with hd | hd
    · exact g2 d hd
    · exact r2 d hd

/-- Mirror of `activeNone_run` for the inactivity timer. -/
lemma inactivityNone_run (inputs : List Input) :
    ∀ s : VCState, s.inactivityTimeout = none →
      (∀ i ∈ inputs, i.isSetInactivityTimeout = false) →
      (run s inputs).1.inactivityTimeout = none ∧
        ∀ d ∈ (run s inputs).2, d.ev ≠ .INACTIVITY_TIMEOUT := by
  induction inputs with
  | nil => intro s h _; simp [run, h]
  | cons i rest ih =>
    intro s h hset
    obtain ⟨g1, g2⟩ := inactivityNone_step s i h (hset i (by simp))
    obtain ⟨r1, r2⟩ := ih (step s i).st g1 (fun j hj => hset j (by simp [hj]))
    refine ⟨by simpa [run] using r1, ?_⟩
    intro d hd
    simp only [run, List.mem_append] at hd
    rcases hd with hd | hd
    · exact g2 d hd
    · exact r2 d hd

/-- C6: after `cancel_active_timeout` (resp. `cancel_inactivity_timeout`),
no timeout event of that kind is delivered by any later stimulus sequence
that does not call the corresponding setter again — whatever duration had
been set before the cancellation, and in particular an expiry arriving
after the cancellation fires nothing: cancellation is never retroactive. -/
theorem C6_cancel_prevents_timeout_events (s : VCState) (inputs : List Input) :
    ((∀ i ∈ inputs, i.isSetActiveTimeout = false) →
      ∀ d ∈ (run (step s .cancelActiveTimeout).st inputs).2,
        d.ev ≠ .ACTIVE_TIMEOUT) ∧
    ((∀ i ∈ inputs, i.isSetInactivityTimeout = false) →
      ∀ d ∈ (run (step s .cancelInactivityTimeout).st inputs).2,
        d.ev ≠ .INACTIVITY_TIMEOUT) := by
  constructor
  · intro hset
    exact (activeNone_run inputs (step s .cancelActiveTimeout).st (by simp [step]) hset).2
  · intro hset
    exact (inactivityNone_run inputs (step s .cancelInactivityTimeout).st
      (by simp [step]) hset).2

/-- Witness for C6: a connection with an active read and an armed active
timer of duration 100; the timer is cancelled and then expires — the expiry
(whose read handler would answer `EVENT_CONT`) fires nothing, exercised on
the inactivity-timeout delivery a parallel armed inactivity timer still
produces, which must not be an `ACTIVE_TIMEOUT`. -/
theorem C6_cancel_prevents_timeout_events_witness :
    (⟨.readSide, 7, 0, .INACTIVITY_TIMEOUT, 0, 0⟩ : Delivery).ev ≠ .ACTIVE_TIMEOUT :=
  (C6_cancel_prevents_timeout_events
      ((run VCState.init
        [.doIORead 7 (some 10), .setActiveTimeout 100, .setInactivityTimeout 100]).1)
      [.expireActive .EVENT_CONT, .expireInactivity .EVENT_CONT]).1
    (by decide)
    ⟨.readSide, 7, 0, .INACTIVITY_TIMEOUT, 0, 0⟩
    (by decide)

/-- Without an intervening `do_io_read`, one stimulus preserves the identity
and sink of whatever read handle is live, and every read-side callback it
delivers references that identity and sink. -/
lemma readId_step (s : VCState) (i : Input) (iid k : Nat)
    (hs : ∀ h, s.readOp = some h → h.vioId = iid ∧ h.sink = k)
    (hi : i.isDoIORead = false) :
    (∀ h, (step s i).st.readOp = some h → h.vioId = iid ∧ h.sink = k) ∧
      ∀ d ∈ (step s i).outs, d.side = .readSide → d.vioId = iid ∧ d.sink = k := by
  cases i with
  | doIORead sink n => simp [Input.isDoIORead] at hi
  | doIOShutdown howto => cases howto <;> simp_all [step]
  | arriveReadBytes n =>
    cases hro : s.readOp with
    | none => simp [step, hro]
    | some h =>
      obtain ⟨e1, e2⟩ := hs h hro
      cases hn : h.nbytes <;>
        simp only [step, hro, hn] <;> (repeat' split) <;> simp_all
  | peerEOS =>
    cases hro : s.readOp with
    | none => simp [step, hro]
    | some h =>
      obtain ⟨e1, e2⟩ := hs h hro
      simp_all [step]
  | expireActive r =>
    cases ha : s.activeTimeout with
    | none => simp_all [step]
    | some t =>
      refine ⟨by intro h hh; exact hs h (by simpa [step, ha] using hh), ?_⟩
      intro d hd hside
      simp only [step, ha] at hd
      rcases timeoutDeliveries_src _ _ _ _ _ _ d hd with ⟨h, hh, rfl⟩ | ⟨h, _, rfl⟩
      · obtain ⟨e1, e2⟩ := hs h hh
        simp [timeoutDelivery, e1, e2]
      · simp [timeoutDelivery] at hside
  | expireInactivity r =>
    cases ha : s.inactivityTimeout with
    | none => simp_all [step]
    | some t =>
      refine ⟨by intro h hh; exact hs h (by simpa [step, ha] using hh), ?_⟩
      intro d hd hside
      simp only [step, ha] at hd
      rcases timeoutDeliveries_src _ _ _ _ _ _ d hd with ⟨h, hh, rfl⟩ | ⟨h, _, rfl⟩
      · obtain ⟨e1, e2⟩ := hs h hh
        simp [timeoutDelivery, e1, e2]
      · simp [timeoutDelivery] at hside
  | _ =>
    refine ⟨?_, ?_⟩ <;> simp only [step] <;> (repeat' split) <;> simp_all

/-- Mirror of `readId_step` for the write handle. -/
lemma writeId_step (s : VCState) (i : Input) (iid k : Nat)
    (hs : ∀ h, s.writeOp = some h → h.vioId = iid ∧ h.sink = k)
    (hi : i.isDoIOWrite = false) :
    (∀ h, (step s i).st.writeOp = some h → h.vioId = iid ∧ h.sink = k) ∧
      ∀ d ∈ (step s i).outs, d.side = .writeSide → d.vioId = iid ∧ d.sink = k := by
  cases i with
  | doIOWrite sink n => simp [Input.isDoIOWrite] at hi
  | doIOShutdown howto => cases howto <;> simp_all [step]
  | drainWriteBytes n =>
    cases hro : s.writeOp with
    | none => simp [step, hro]
    | some h =>
      obtain ⟨e1, e2⟩ := hs h hro
      cases hn : h.nbytes <;>
        simp only [step, hro, hn] <;> (repeat' split) <;> simp_all
  | expireActive r =>
    cases ha : s.activeTimeout with
    | none => simp_all [step]
    | some t =>
      refine ⟨by intro h hh; exact hs h (by simpa [step, ha] using hh), ?_⟩
      intro d hd hside
      simp only [step, ha] at hd
      rcases timeoutDeliveries_src _ _ _ _ _ _ d hd with ⟨h, _, rfl⟩ | ⟨h, hh, rfl⟩
      · simp [timeoutDelivery] at hside
      · obtain ⟨e1, e2⟩ := hs h hh
        simp [timeoutDelivery, e1, e2]
  | expireInactivity r =>
    cases ha : s.inactivityTimeout with
    | none => simp_all [step]
    | some t =>
      refine ⟨by intro h hh; exact hs h (by simpa [step, ha] using hh), ?_⟩
      intro d hd hside
      simp only [step, ha] at hd
      rcases timeoutDeliveries_src _ _ _ _ _ _ d hd with ⟨h, _, rfl⟩ | ⟨h, hh, rfl⟩
      · simp [timeoutDelivery] at hside
      · obtain ⟨e1, e2⟩ := hs h hh
        simp [timeoutDelivery, e1, e2]
  | _ =>
    refine ⟨?_, ?_⟩ <;> simp only [step] <;> (repeat' split) <;> simp_all

/-- Read-handle identity stability over a stimulus sequence free of
`do_io_read` calls. -/
lemma readId_run (inputs : List Input) :
    ∀ s : VCState, ∀ iid k : Nat,
      (∀ h, s.readOp = some h → h.vioId = iid ∧ h.sink = k) →
      (∀ i ∈ inputs, i.isDoIORead = false) →
      ∀ d ∈ (run s inputs).2, d.side = .readSide → d.vioId = iid ∧ d.sink = k := by
  induction inputs with
  | nil => intro s iid k _ _; simp [run]
  | cons i rest ih =>
    intro s iid k hs hno
    obtain ⟨g1, g2⟩ := readId_step s i iid k hs (hno i (by simp))
    have r2 := ih (step s i).st iid k g1 (fun j hj => hno j (by simp [hj]))
    intro d hd
    simp only [run, List.mem_append] at hd
    rcases hd with hd | hd
    · exact g2 d hd
    · exact r2 d hd

/-- Mirror of `readId_run` for the write handle. -/
lemma writeId_run (inputs : List Input) :
    ∀ s : VCState, ∀ iid k : Nat,
      (∀ h, s.writeOp = some h → h.vioId = iid ∧ h.sink = k) →
      (∀ i ∈ inputs, i.isDoIOWrite = false) →
      ∀ d ∈ (run s inputs).2, d.side = .writeSide → d.vioId = iid ∧ d.sink = k := by
  induction inputs with
  | nil => intro s iid k _ _; simp [run]
  | cons i rest ih =>
    intro s iid k hs hno
    obtain ⟨g1, g2⟩ := writeId_step s i iid k hs (hno i (by simp))
    have r2 := ih (step s i).st iid k g1 (fun j hj => hno j (by simp [hj]))
    intro d hd
    simp only [run, List.mem_append] at hd
    rcases hd with hd | hd
    · exact g2 d hd
    · exact r2 d hd

/-- C7: the handle `do_io_read` returns is the one every subsequently
delivered read-side event references — same identity, same sink — and that
identity is stable until a new `do_io_read` replaces the handle: across any
stimulus sequence with no further `do_io_read`, every read-side callback
carries the returned handle's identity and sink.  Symmetrically for
`do_io_write` and write-side callbacks. -/
theorem C7_handle_identity_stable (s : VCState) (k : Nat) (n : Option Nat)
    (inputs : List Input)
    (hrs : s.readShut = false) (hws : s.writeShut = false) (hcl : s.closed = false) :
    ((step s (.doIORead k n)).st.readOp = some ⟨s.nextVioId, k, n, 0⟩ ∧
      ((∀ i ∈ inputs, i.isDoIORead = false) →
        ∀ d ∈ (run (step s (.doIORead k n)).st inputs).2,
          d.side = .readSide → d.vioId = s.nextVioId ∧ d.sink = k)) ∧
    ((step s (.doIOWrite k n)).st.writeOp = some ⟨s.nextVioId, k, n, 0⟩ ∧
      ((∀ i ∈ inputs, i.isDoIOWrite = false) →
        ∀ d ∈ (run (step s (.doIOWrite k n)).st inputs).2,
          d.side = .writeSide → d.vioId = s.nextVioId ∧ d.sink = k)) := by
  refine ⟨⟨by simp [step, hrs, hcl], ?_⟩, ⟨by simp [step, hws, hcl], ?_⟩⟩
  · intro hno
    exact readId_run inputs (step s (.doIORead k n)).st s.nextVioId k
      (by simp [step, hrs, hcl]) hno
  · intro hno
    exact writeId_run inputs (step s (.doIOWrite k n)).st s.nextVioId k
      (by simp [step, hws, hcl]) hno

/-- Witness for C7: a fresh connection; `do_io_read(5, 10)` returns handle
identity 0, and the `READ_READY` delivered after 4 bytes arrive references
identity 0 and sink 5. -/
theorem C7_handle_identity_stable_witness :
    (⟨.readSide, 5, 0, .READ_READY, 4, 4⟩ : Delivery).vioId = VCState.init.nextVioId ∧
      (⟨.readSide, 5, 0, .READ_READY, 4, 4⟩ : Delivery).sink = 5 :=
  ((C7_handle_identity_stable VCState.init 5 (some 10) [.arriveReadBytes 4]
      rfl rfl rfl).1).2
    (by decide)
    ⟨.readSide, 5, 0, .READ_READY, 4, 4⟩
    (by decide)
    rfl

/-- With no read handle, arriving transport bytes are inert. -/
lemma arrivals_noop (cs : List Nat) (s : VCState) (h : s.readOp = none) :
    run s (cs.map Input.arriveReadBytes) = (s, []) := by
  induction cs with
  | nil => simp [run]
  | cons n cs ih => simp [run, step, h, ih]

/-- Case analysis of one arrival against a bounded, not-yet-complete read
handle: it either completes the read (delta `N - d0`, handle retired),
makes strict progress (`READ_READY` with delta `n`), or carries zero bytes
and does nothing. -/
lemma step_arrive_cases (s : VCState) (n iid k N d0 : Nat)
    (hro : s.readOp = some ⟨iid, k, some N, d0⟩) (hd : d0 < N) :
    (N ≤ d0 + n ∧ step s (.arriveReadBytes n) =
        ⟨{ s with readOp := none },
          [⟨.readSide, k, iid, .READ_COMPLETE, N - d0, N⟩], false⟩) ∨
    (0 < n ∧ d0 + n < N ∧ step s (.arriveReadBytes n) =
        ⟨{ s with readOp := some ⟨iid, k, some N, d0 + n⟩ },
          [⟨.readSide, k, iid, .READ_READY, n, d0 + n⟩], false⟩) ∨
    (n = 0 ∧ d0 + n < N ∧ step s (.arriveReadBytes n) = ⟨s, [], false⟩) := by
  by_cases hc : N ≤ d0 + n
  · left
    refine ⟨hc, ?_⟩
    have hmin : min (d0 + n) N = N := by omega
    simp [step, hro, hmin]
  · by_cases hn : 0 < n
    · right; left
      refine ⟨hn, by omega, ?_⟩
      have hmin : min (d0 + n) N = d0 + n := by omega
      simp [step, hro, hmin, hc]
      omega
    · right; right
      have hn0 : n = 0 := by omega
      subst hn0
      refine ⟨rfl, by omega, ?_⟩
      have hmin : min (d0 + 0) N = d0 := by omega
      simp [step, hro, hmin, hc]
      omega

/-- Running a chunk list whose total covers the remaining bytes of a bounded
read: the delivery trace is a block of `READ_READY` progress events for that
handle followed by exactly one `READ_COMPLETE` whose handle reads `N` done,
the reported bytes over the whole trace sum to the remaining `N - d0`, and
the final state is the start state with the read handle retired. -/
lemma read_arrivals_complete (N : Nat) (cs : List Nat) :
    ∀ (s : VCState) (iid k d0 : Nat),
      s.readOp = some ⟨iid, k, some N, d0⟩ → d0 < N → N - d0 ≤ cs.sum →
      ∃ pre b,
        (run s (cs.map Input.arriveReadBytes)).2 =
          pre ++ [⟨.readSide, k, iid, .READ_COMPLETE, b, N⟩] ∧
        (∀ d ∈ pre, d.side = .readSide ∧ d.sink = k ∧ d.vioId = iid ∧
          d.ev = .READ_READY) ∧
        ((run s (cs.map Input.arriveReadBytes)).2.map Delivery.bytes).sum = N - d0 ∧
        (run s (cs.map Input.arriveReadBytes)).1 = { s with readOp := none } := by
  induction cs with
  | nil =>
    intro s iid k d0 hro hd hsum
    simp at hsum
    omega
  | cons n cs ih =>
    intro s iid k d0 hro hd hsum
    rcases step_arrive_cases s n iid k N d0 hro hd with
      ⟨hc, hstep⟩ | ⟨hn, hc, hstep⟩ | ⟨hn0, hc, hstep⟩
    · have hnoop := arrivals_noop cs { s with readOp := none } rfl
      refine ⟨[], N - d0, ?_, by simp, ?_, ?_⟩
      · simp [run, hstep, hnoop]
      · simp [run, hstep, hnoop]
      · simp [run, hstep, hnoop]
    · obtain ⟨pre, b, e1, e2, e3, e4⟩ :=
        ih { s with readOp := some ⟨iid, k, some N, d0 + n⟩ } iid k (d0 + n) rfl hc
          (by simp at hsum; omega)
      refine ⟨⟨.readSide, k, iid, .READ_READY, n, d0 + n⟩ :: pre, b, ?_, ?_, ?_, ?_⟩
      · simp [run, hstep, e1]
      · intro d hd'
        rcases List.mem_cons.1 hd' with rfl | hd'
        · exact ⟨rfl, rfl, rfl, rfl⟩
        · exact e2 d hd'
      · have : ((run { s with readOp := some ⟨iid, k, some N, d0 + n⟩ }
            (cs.map Input.arriveReadBytes)).2.map Delivery.bytes).sum = N - (d0 + n) := e3
        simp [run, hstep, this]
        omega
      · simpa [run, hstep] using e4
    · subst hn0
      obtain ⟨pre, b, e1, e2, e3, e4⟩ :=
        ih s iid k d0 hro hd (by simp at hsum ⊢; omega)
      refine ⟨pre, b, ?_, e2, ?_, ?_⟩
      · simp [run, hstep, e1]
      · simp [run, hstep, e3]
      · simpa [run, hstep] using e4

/-- A retired handle identity never reappears: if neither live handle bears
identity `iid` and `iid` is below the fresh-identity counter, one stimulus
preserves all of that and delivers no callback referencing `iid`. -/
lemma freshId_step (s : VCState) (i : Input) (iid : Nat)
    (h1 : ∀ h, s.readOp = some h → h.vioId ≠ iid)
    (h2 : ∀ h, s.writeOp = some h → h.vioId ≠ iid)
    (h3 : iid < s.nextVioId) :
    (∀ h, (step s i).st.readOp = some h → h.vioId ≠ iid) ∧
      (∀ h, (step s i).st.writeOp = some h → h.vioId ≠ iid) ∧
      iid < (step s i).st.nextVioId ∧
      ∀ d ∈ (step s i).outs, d.vioId ≠ iid := by
  cases i with
  | doIORead k n =>
    simp only [step]
    split_ifs <;> refine ⟨?_, ?_, ?_, ?_⟩ <;> simp_all <;> omega
  | doIOWrite k n =>
    simp only [step]
    split_ifs <;> refine ⟨?_, ?_, ?_, ?_⟩ <;> simp_all <;> omega
  | doIOShutdown howto => cases howto <;> simp_all [step]
  | arriveReadBytes n =>
    cases hro : s.readOp with
    | none => simp_all [step]
    | some h =>
      have := h1 h hro
      cases hn : h.nbytes <;>
        simp only [step, hro, hn] <;> (repeat' split) <;> simp_all
  | drainWriteBytes n =>
    cases hro : s.writeOp with
    | none => simp_all [step]
    | some h =>
      have := h2 h hro
      cases hn : h.nbytes <;>
        simp only [step, hro, hn] <;> (repeat' split) <;> simp_all
  | peerEOS =>
    cases hro : s.readOp with
    | none => simp_all [step]
    | some h =>
      have := h1 h hro
      simp_all [step]
  | expireActive r =>
    cases ha : s.activeTimeout with
    | none => simp_all [step]
    | some t =>
      refine ⟨by simp_all [step], by simp_all [step], by simp_all [step], ?_⟩
      intro d hd
      simp only [step, ha] at hd
      rcases timeoutDeliveries_src _ _ _ _ _ _ d hd with ⟨h, hh, rfl⟩ | ⟨h, hh, rfl⟩
      · simpa [timeoutDelivery] using h1 h hh
      · simpa [timeoutDelivery] using h2 h hh
  | expireInactivity r =>
    cases ha : s.inactivityTimeout with
    | none => simp_all [step]
    | some t =>
      refine ⟨by simp_all [step], by simp_all [step], by simp_all [step], ?_⟩
      intro d hd
      simp only [step, ha] at hd
      rcases timeoutDeliveries_src _ _ _ _ _ _ d hd with ⟨h, hh, rfl⟩ | ⟨h, hh, rfl⟩
      · simpa [timeoutDelivery] using h1 h hh
      · simpa [timeoutDelivery] using h2 h hh
  | _ =>
    refine ⟨?_, ?_, ?_, ?_⟩ <;> simp only [step] <;> (repeat' split) <;> simp_all

/-- A retired handle identity never reappears over a whole stimulus
sequence: no delivered callback references it. -/
lemma freshId_run (inputs : List Input) :
    ∀ (s : VCState) (iid : Nat),
      (∀ h, s.readOp = some h → h.vioId ≠ iid) →
      (∀ h, s.writeOp = some h → h.vioId ≠ iid) →
      iid < s.nextVioId →
      ∀ d ∈ (run s inputs).2, d.vioId ≠ iid := by
  induction inputs with
  | nil => intro s iid _ _ _; simp [run]
  | cons i rest ih =>
    intro s iid h1 h2 h3
    obtain ⟨g1, g2, g3, g4⟩ := freshId_step s i iid h1 h2 h3
    have r4 := ih (step s i).st iid g1 g2 g3
    intro d hd
    simp only [run, List.mem_append] at hd
    rcases hd with hd | hd
    · exact g4 d hd
    · exact r4 d hd

/-- C4: a read issued by `do_io_read` with bounded byte count `N`, fed any
sequence of transport chunks totalling at least `N`, delivers a block of
`READ_READY` progress events followed by exactly one `READ_COMPLETE` whose
handle's completed-byte count reads `N`; the bytes reported across those
events (progress plus completion) sum to exactly `N`; and after the
completion no further callback referencing that handle is ever delivered,
whatever stimuli follow. -/
theorem C4_bounded_read_accounting (s : VCState) (k N : Nat) (cs : List Nat)
    (rest : List Input) (hwf : wf s = true) (hrs : s.readShut = false)
    (hcl : s.closed = false) (hN : 0 < N) (hsum : N ≤ cs.sum) :
    ∃ pre b,
      (run (step s (.doIORead k (some N))).st (cs.map Input.arriveReadBytes)).2 =
        pre ++ [⟨.readSide, k, s.nextVioId, .READ_COMPLETE, b, N⟩] ∧
      (∀ d ∈ pre, d.side = .readSide ∧ d.sink = k ∧ d.vioId = s.nextVioId ∧
        d.ev = .READ_READY) ∧
      ((run (step s (.doIORead k (some N))).st
        (cs.map Input.arriveReadBytes)).2.map Delivery.bytes).sum = N ∧
      ∀ d ∈ (run (run (step s (.doIORead k (some N))).st
          (cs.map Input.arriveReadBytes)).1 rest).2, d.vioId ≠ s.nextVioId := by
  have hstep : (step s (.doIORead k (some N))).st =
      { s with
          readOp := some ⟨s.nextVioId, k, some N, 0⟩
          nextVioId := s.nextVioId + 1 } := by
    simp [step, hrs, hcl]
  obtain ⟨pre, b, e1, e2, e3, e4⟩ :=
    read_arrivals_complete N cs (step s (.doIORead k (some N))).st s.nextVioId k 0
      (by rw [hstep]) hN (by simpa using hsum)
  refine ⟨pre, b, e1, e2, by simpa using e3, ?_⟩
  apply freshId_run rest _ s.nextVioId
  · rw [e4, hstep]
    intro h hh
    simp at hh
  · rw [e4, hstep]
    intro h hh
    simp only at hh
    cases hw : s.writeOp with
    | none => rw [hw] at hh; exact absurd hh (by simp)
    | some h' =>
      rw [hw] at hh
      have hlt : h'.vioId < s.nextVioId := by
        simp [wf, hw] at hwf
        exact hwf.2
      simp at hh
      subst hh
      omega
  · rw [e4, hstep]
    simp

/-- Witness for C4: a fresh connection, `do_io_read(3, 100)`, transport
chunks of 40 then 60 bytes: the reported bytes over the delivered events sum
to exactly 100. -/
theorem C4_bounded_read_accounting_witness :
    ((run (step VCState.init (.doIORead 3 (some 100))).st
      ([40, 60].map Input.arriveReadBytes)).2.map Delivery.bytes).sum = 100 := by
  obtain ⟨pre, b, -, -, h3, -⟩ :=
    C4_bounded_read_accounting VCState.init 3 100 [40, 60] [.arriveReadBytes 5]
      (by decide) rfl rfl (by decide) (by decide)
  exact h3

/-- C1: on expiry of an active or inactivity timeout, delivery is first
attempted to the read-side sink, and only if a read operation is active and
the read direction is not shut down (the read delivery, when present, heads
the delivery list); if the read handler returns `EVENT_DONE` nothing else is
delivered for that expiry; if it does not, the write-side sink is delivered
the same notification if and only if a write operation is active, the write
direction is not shut down, and the write sink is distinct (by pointer
identity) from the read sink. -/
theorem C1_timeout_firing_policy (ev : VCEvent) (ro wo : Option OpHandle)
    (rs ws : Bool) (r : EventResult) :
    ((∃ d ∈ timeoutDeliveries ev ro wo rs ws r, d.side = .readSide) ↔
      ((∃ h, ro = some h) ∧ rs = false)) ∧
    (∀ h, ro = some h → rs = false →
      (timeoutDeliveries ev ro wo rs ws r).head? =
          some (timeoutDelivery .readSide ev h) ∧
        (r = .EVENT_DONE →
          timeoutDeliveries ev ro wo rs ws r = [timeoutDelivery .readSide ev h]) ∧
        (r ≠ .EVENT_DONE →
          ((∃ d ∈ timeoutDeliveries ev ro wo rs ws r, d.side = .writeSide) ↔
            ∃ w, wo = some w ∧ ws = false ∧ w.sink ≠ h.sink))) := by
  cases ro <;> cases wo <;> cases rs <;> cases ws <;> cases r <;>
    simp [timeoutDeliveries, timeoutDelivery] <;>
    split_ifs <;> simp_all

/-- Witness for C1: both sides active with distinct sinks; the read handler
answers `EVENT_DONE`, so the read sink alone is notified. -/
theorem C1_timeout_firing_policy_witness :
    timeoutDeliveries .ACTIVE_TIMEOUT (some ⟨0, 5, none, 0⟩) (some ⟨1, 6, none, 0⟩)
        false false .EVENT_DONE =
      [timeoutDelivery .readSide .ACTIVE_TIMEOUT ⟨0, 5, none, 0⟩] :=
  ((C1_timeout_firing_policy .ACTIVE_TIMEOUT (some ⟨0, 5, none, 0⟩)
    (some ⟨1, 6, none, 0⟩) false false .EVENT_DONE).2 ⟨0, 5, none, 0⟩ rfl rfl).2.1 rfl

/-- C10: for every boolean `v`, `set_is_internal_request(v)` followed by
`get_is_internal_request()` returns exactly `v` and leaves every other field
of the connection untouched; the call with the argument omitted stores
`false`, because the declared default argument is `false`. -/
theorem C10_set_get_is_internal_request (vc : NetVConnectionData) (v : Bool) :
    (vc.set_is_internal_request v).get_is_internal_request = v ∧
    (vc.set_is_internal_request v).options = vc.options ∧
    (vc.set_is_internal_request v).attributes = vc.attributes ∧
    (vc.set_is_internal_request v).thread = vc.thread ∧
    (vc.set_is_internal_request v).local_addr = vc.local_addr ∧
    (vc.set_is_internal_request v).remote_addr = vc.remote_addr ∧
    (vc.set_is_internal_request v).got_local_addr = vc.got_local_addr ∧
    (vc.set_is_internal_request v).got_remote_addr = vc.got_remote_addr ∧
    vc.set_is_internal_request_noarg = vc.set_is_internal_request false ∧
    vc.set_is_internal_request_noarg.get_is_internal_request = false := by
  simp [NetVConnectionData.set_is_internal_request,
    NetVConnectionData.get_is_internal_request,
    NetVConnectionData.set_is_internal_request_noarg]

/-- C9: a freshly constructed `NetVConnection` has both address caches
unresolved (`got_local_addr = 0`, `got_remote_addr = 0`, both address
structs zero-filled), the internal-request flag false, `attributes` 0 and a
null thread pointer; consequently the first `get_local_addr` /
`get_remote_addr` call takes the resolution branch (storing the freshly
resolved address and marking the cache) rather than returning a cached
value. -/
theorem C9_constructor_unresolved (opts : NetVCOptions) (res res' : sockaddr_in) :
    let vc := NetVConnectionData.construct opts
    vc.got_local_addr = 0 ∧ vc.got_remote_addr = 0 ∧
    vc.local_addr = sockaddr_in.zero ∧ vc.remote_addr = sockaddr_in.zero ∧
    vc.is_internal_request = false ∧ vc.attributes = 0 ∧ vc.thread = none ∧
    vc.get_local_addr res =
      ({ vc with local_addr := res, got_local_addr := 1 }, res) ∧
    vc.get_remote_addr res' =
      ({ vc with remote_addr := res', got_remote_addr := 1 }, res') := by
  simp [NetVConnectionData.construct, NetVConnectionData.get_local_addr,
    NetVConnectionData.get_remote_addr]

/-- C8: under `ANY_ADDR` address binding, the stored `local_addr` value has
no effect on the parameters the transport consumes (two option blocks
identical except for `local_addr` resolve identically); under `ANY_PORT`
the stored `local_port` likewise has no effect. -/
theorem C8_any_binding_ignores_value (o : NetVCOptions) (a a' p p' : Nat) :
    (o.addr_binding = .ANY_ADDR →
      NetVCOptions.effectiveParams { o with local_addr := a } =
        NetVCOptions.effectiveParams { o with local_addr := a' }) ∧
    (o.port_binding = .ANY_PORT →
      NetVCOptions.effectiveParams { o with local_port := p } =
        NetVCOptions.effectiveParams { o with local_port := p' }) := by
  constructor <;> intro h <;>
    simp [NetVCOptions.effectiveParams, NetVCOptions.effectiveAddrBinding,
      NetVCOptions.effectivePortBinding, h]

/-- Witness for C8 at a concrete option block with both binding styles
set to the respective any-style and differing stored values. -/
theorem C8_any_binding_ignores_value_witness :
    NetVCOptions.effectiveParams { sampleOptions with local_addr := 1 } =
        NetVCOptions.effectiveParams { sampleOptions with local_addr := 2 } ∧
      NetVCOptions.effectiveParams { sampleOptions with local_port := 3 } =
        NetVCOptions.effectiveParams { sampleOptions with local_port := 4 } :=
  ⟨(C8_any_binding_ignores_value sampleOptions 1 2 3 4).1 rfl,
    (C8_any_binding_ignores_value sampleOptions 1 2 3 4).2 rfl⟩

/-- C3: `do_io_close` is idempotent: whatever the connection state, a second
`do_io_close` after a first one is a no-op: it leaves the state exactly as
the first close left it, delivers no callback and reports no fault. -/
theorem C3_do_io_close_idempotent (s : VCState) (l1 l2 : Int) :
    step (step s (.doIOClose l1)).st (.doIOClose l2) =
      ⟨(step s (.doIOClose l1)).st, [], false⟩ := by
  cases hc : s.closed <;> simp [step, hc]

/-- C5: while neither the read side nor the write side has an active
operation, neither timer fires: expiry of either timer delivers no
callback, and setting either timeout is ignored (the state, including the
armed timers, is unchanged). -/
theorem C5_timeout_inert_without_active_op (s : VCState) (d : Nat)
    (r : EventResult) (hr : s.readOp = none) (hw : s.writeOp = none) :
    (step s (.expireActive r)).outs = [] ∧
    (step s (.expireInactivity r)).outs = [] ∧
    step s (.setActiveTimeout d) = ⟨s, [], false⟩ ∧
    step s (.setInactivityTimeout d) = ⟨s, [], false⟩ := by
  cases ha : s.activeTimeout <;> cases hi : s.inactivityTimeout <;>
    simp [step, hr, hw, ha, hi, timeoutDeliveries]

/-- Witness for C5: a fresh connection with no operations. -/
theorem C5_timeout_inert_without_active_op_witness :
    (step VCState.init (.expireActive .EVENT_CONT)).outs = [] ∧
    (step VCState.init (.expireInactivity .EVENT_CONT)).outs = [] ∧
    step VCState.init (.setActiveTimeout 5) = ⟨VCState.init, [], false⟩ ∧
    step VCState.init (.setInactivityTimeout 5) = ⟨VCState.init, [], false⟩ :=
  C5_timeout_inert_without_active_op VCState.init 5 .EVENT_CONT rfl rfl

end NetVC
